import Mathlib

/-!
# Verification of the SDGs energy-dashboard aggregation engine

Shallow embedding of the data-aggregation and view-model logic of
`src/script.js` (an in-browser energy-generation dashboard).

Modelling conventions:
* JS numbers are modelled as `ℚ` (the dataset holds exact decimal values;
  no floating-point-specific behaviour is claimed, except that division by
  zero is modelled explicitly via `JsNum` with `NaN` / `Infinity` results,
  as in JS).
* A JS record `{region: ..., solar: ..., wind: ...}` is a `RegionRecord`:
  the `region` field plus an association list of per-source values.
  `r[s] || 0` becomes `RegionRecord.get`, which defaults a missing key
  (and an explicit 0, which is falsy in JS — same result) to `0`.
* `data.regional[year]` on a missing year yields `undefined` in JS, and the
  subsequent array access throws a `TypeError`; this is modelled by
  `Except JsError` with the single error kind `JsError.typeError`.
* `Array.prototype.sort(cmp)` is stable (ECMAScript 2019); with the
  consistent comparators used in the source (`(a,b) => keyB - keyA`) its
  result is the unique stable descending reordering, embedded here as
  `List.insertionSort` with the relation `k b ≤ k a` (Mathlib's
  `insertionSort` is stable and places earlier input elements first on
  ties, exactly like a stable JS sort).
* `toFixed(1)` is modelled as rounding to one decimal place, half up
  (ECMA-262 `Number.prototype.toFixed`: of two nearest candidates the
  larger is chosen); the decimal string it produces is abstracted by
  `fmtNum`, and the string-vs-number comparison `percentage > 3` (which
  coerces the string back to the number it denotes) by `gtThree`.
-/

namespace SDGs

/-- The only failure the source can actually raise in the aggregation
paths: a `TypeError` from accessing a property of `undefined`
(e.g. `data.regional[year].reduce` for an unknown `year`). -/
inductive JsError where
  | typeError
deriving DecidableEq, Repr

/-- One entry of `data.regional[year]`: the `region` name plus the
per-source generation values actually present on the JS object. -/
structure RegionRecord where
  region : String
  values : List (String × ℚ)
deriving DecidableEq, Repr

/-- `r[s] || 0`: the value for source `s`, defaulting a missing key to 0. -/
def RegionRecord.get (r : RegionRecord) (s : String) : ℚ :=
  (r.values.lookup s).getD 0

/-- The dataset (`window.globalData`): ordered source list, year-indexed
regional records, and the default year. (`yearly` and `growth_rate` feed
only the static trend charts, which no claim is about.) -/
structure Dataset where
  sources : List String
  regional : List (String × List RegionRecord)
  latest_year : String
deriving DecidableEq, Repr

/-- `data.regional[year]`: `none` models JS `undefined`. -/
def Dataset.regionalFor (d : Dataset) (y : String) : Option (List RegionRecord) :=
  d.regional.lookup y

/-- `data.sources.reduce((acc, s) => acc + (r[s] || 0), 0)` — the
per-region grand total over the given sources. -/
def regionTotal (r : RegionRecord) (sources : List String) : ℚ :=
  sources.foldl (fun acc s => acc + r.get s) 0

/-- `filterByYear`, lines 68–71: the total generation for the year,
`regionalData.reduce((acc, r) => acc + data.sources.reduce(..., 0), 0)`.
A year absent from `regional` makes `regionalData` `undefined` and the
`.reduce` call throw. -/
def totalForYear (d : Dataset) (y : String) : Except JsError ℚ :=
  match d.regionalFor y with
  | none => .error .typeError
  | some rs => .ok (rs.foldl (fun acc r => acc + regionTotal r d.sources) 0)

/-- The selection state: `window.currentYear`. -/
structure SelState where
  currentYear : String
deriving DecidableEq, Repr

/-- `window.filterByYear(year)`, lines 47–87, reduced to its state effect
and its aggregation result: the FIRST statement is
`window.currentYear = year` (no validation), and only afterwards is
`data.regional[year]` read, so the returned post-state carries the
requested year even when the aggregation fails. The prior state is
overwritten unconditionally. -/
def filterByYear (d : Dataset) (_st : SelState) (y : String) :
    SelState × Except JsError ℚ :=
  (⟨y⟩, totalForYear d y)

/-- The stable descending sort by a rational key: the meaning of
`arr.sort((a, b) => key(b) - key(a))` for JS's stable `Array.sort`. -/
def sortDescBy (k : α → ℚ) (l : List α) : List α :=
  l.insertionSort (fun a b => k b ≤ k a)

/-- `renderRegionalChart`, lines 184–188: copy the year's records, sort
descending by the per-region total over all sources (comparator
`sumB - sumA`, totals only), and `slice(0, n)` (`n = 5` in the source). -/
def topRegions (d : Dataset) (y : String) (n : Nat) :
    Except JsError (List RegionRecord) :=
  match d.regionalFor y with
  | none => .error .typeError
  | some rs => .ok ((sortDescBy (regionTotal · d.sources) rs).take n)

/-- `updateRankingTable` (the later, overriding definition, lines
423–460): map each record to `{region, val: r[source] || 0}` and sort
descending by `val` (`(a, b) => b.val - a.val`), full region set. -/
def rankBySource (d : Dataset) (y : String) (s : String) :
    Except JsError (List (String × ℚ)) :=
  match d.regionalFor y with
  | none => .error .typeError
  | some rs => .ok (sortDescBy Prod.snd (rs.map (fun r => (r.region, r.get s))))

/-- `renderMixChart`, lines 314–317: for each source, in `data.sources`
order, the sum of that source's value over the year's regions. -/
def sourceMixTotals (d : Dataset) (y : String) :
    Except JsError (List (String × ℚ)) :=
  match d.regionalFor y with
  | none => .error .typeError
  | some rs =>
    .ok (d.sources.map (fun s => (s, rs.foldl (fun acc r => acc + r.get s) 0)))

/-- `renderRegionalShareChart`, lines 363–368: map each record to
`{region, total}` and sort descending by `total` (`b.total - a.total`). -/
def regionShareTotals (d : Dataset) (y : String) :
    Except JsError (List (String × ℚ)) :=
  match d.regionalFor y with
  | none => .error .typeError
  | some rs =>
    .ok (sortDescBy Prod.snd (rs.map (fun r => (r.region, regionTotal r d.sources))))

/-- A JS number that can be `NaN` or `±Infinity` (the possible results of
dividing by zero). -/
inductive JsNum where
  | nan
  | inf
  | negInf
  | num (q : ℚ)
deriving DecidableEq, Repr

/-- JS division: `0/0 = NaN`, `a/0 = ±Infinity` for `a ≠ 0`. -/
def jsDiv (a b : ℚ) : JsNum :=
  if b = 0 then (if a = 0 then .nan else if 0 < a then .inf else .negInf)
  else .num (a / b)

/-- Rounding to one decimal place, half up (the value denoted by
`x.toFixed(1)`). -/
def round1 (q : ℚ) : ℚ := (⌊q * 10 + 1 / 2⌋ : ℚ) / 10

/-- `toFixed(1)` on a JS number: `NaN` and the infinities print as
themselves, a finite number is rounded to one decimal place. -/
def toFixed1 : JsNum → JsNum
  | .num q => .num (round1 q)
  | x => x

/-- The indices the chart currently shows
(`ctx.chart.getDataVisibility(i)`). -/
def visibleIdx (values : List ℚ) (mask : List Bool) : List Nat :=
  (List.range values.length).filter (fun i => mask.getD i false)

/-- The datalabels formatter's accumulation loop, lines 338–344:
`dataArr.map((data, i) => { if (visible i) { sum += data } })`. -/
def visibleSum (values : List ℚ) (mask : List Bool) : ℚ :=
  ((visibleIdx values mask).map (fun i => values.getD i 0)).sum

/-- `(value * 100 / sum).toFixed(1)`, lines 345 and 399 — the
visibility-renormalized share percentage of index `i`, rounded to one
decimal place.  When the visible sum is zero the division still happens
(there is no guard in the source) and yields `NaN` or `Infinity`. -/
def visibleSharePercent (values : List ℚ) (mask : List Bool) (i : Nat) : JsNum :=
  toFixed1 (jsDiv (values.getD i 0 * 100) (visibleSum values mask))

/-- `percentage > 3` where `percentage` is the `toFixed(1)` STRING: JS
coerces the string back to the number it denotes; `"NaN" > 3` is false,
`"Infinity" > 3` is true. -/
def gtThree : JsNum → Bool
  | .nan => false
  | .inf => true
  | .negInf => false
  | .num q => decide (3 < q)

/-- The text of a JS number (decimal rendering abstracted). -/
def fmtNum : JsNum → String
  | .nan => "NaN"
  | .inf => "Infinity"
  | .negInf => "-Infinity"
  | .num q => toString q

/-- The datalabels formatter shared verbatim by `renderMixChart`
(lines 337–347) and `renderRegionalShareChart` (lines 391–401):
`return percentage > 3 ? percentage + "%" : ""`. -/
def chartPercentLabel (values : List ℚ) (mask : List Bool) (i : Nat) : String :=
  let p := visibleSharePercent values mask i
  if gtThree p then fmtNum p ++ "%" else ""

/-- `showHeatmap` (the later, overriding definition), lines 503–507:
`if (val > 0) { intensity = 0.1 + (val / maxVal) * 0.9 }`, and no
intensity (modelled as 0, matching the spec's zero branch) otherwise.
Note the source applies NO clamping. -/
def heatmapIntensity (value maxValue : ℚ) : ℚ :=
  if 0 < value then 1 / 10 + value / maxValue * (9 / 10) else 0

/-- Modelled from the spec: `heatmapIntensity` as §4.1 words it, with the
result CLAMPED to `[0, ceiling]` (the source has no clamp); written only
to be compared against the code's `heatmapIntensity`. -/
def heatmapIntensitySpec (value maxValue : ℚ) : ℚ :=
  if value ≤ 0 then 0
  else max 0 (min 1 (1 / 10 + value / maxValue * (1 - 1 / 10)))

/-- `showHeatmap`, lines 488–492: the grid maximum,
`if ((r[s] || 0) > maxVal) maxVal = r[s]`, starting from 0. -/
def heatmapMax (d : Dataset) (rs : List RegionRecord) : ℚ :=
  rs.foldl
    (fun m r => d.sources.foldl (fun m s => if m < r.get s then r.get s else m) m) 0

/-- One heatmap cell, lines 499–507: the displayed text (`'-'` for the
zero branch, the numeral otherwise — `toLocaleString` abstracted as
`toString`) and the optional background intensity (`none` when the
`val > 0` branch is not taken, so no division is performed). -/
def heatmapCell (val maxVal : ℚ) : String × Option ℚ :=
  if 0 < val then (toString val, some (heatmapIntensity val maxVal))
  else ("-", none)

/-- The whole heatmap grid of `showHeatmap`: per region, per source (in
`data.sources` order), the rendered cell against the year's grid maximum. -/
def showHeatmapGrid (d : Dataset) (y : String) :
    Except JsError (List (String × List (String × Option ℚ))) :=
  match d.regionalFor y with
  | none => .error .typeError
  | some rs =>
    .ok (rs.map (fun r =>
      (r.region, d.sources.map (fun s => heatmapCell (r.get s) (heatmapMax d rs)))))

/-! ### Concrete datasets used as witnesses and counterexamples -/

/-- Region `A` of the spec's end-to-end example: `{solar: 100, wind: 0}`. -/
def recA : RegionRecord := ⟨"A", [("solar", 100), ("wind", 0)]⟩

/-- Region `B` of the spec's end-to-end example: `{solar: 50, wind: 50}`. -/
def recB : RegionRecord := ⟨"B", [("solar", 50), ("wind", 50)]⟩

/-- The spec's end-to-end example dataset: two regions for year `"2023"`,
`sources = [solar, wind]`. -/
def exD : Dataset := ⟨["solar", "wind"], [("2023", [recA, recB])], "2023"⟩

/-- A dataset whose single year `"2024"` has only zero or absent values. -/
def exDZero : Dataset :=
  ⟨["solar", "wind"], [("2024", [⟨"Z1", []⟩, ⟨"Z2", [("solar", 0)]⟩])], "2024"⟩

/-! ### General lemmas about the embedded operations -/

/-- The stable descending sort permutes its input. -/
theorem sortDescBy_perm (k : α → ℚ) (l : List α) : List.Perm (sortDescBy k l) l :=
  List.perm_insertionSort _ l

/-- The stable descending sort preserves length. -/
theorem sortDescBy_length (k : α → ℚ) (l : List α) :
    (sortDescBy k l).length = l.length :=
  List.length_insertionSort _ l

/-- The result of `sortDescBy` is sorted: keys are non-increasing along it. -/
theorem sortDescBy_sorted (k : α → ℚ) (l : List α) :
    (sortDescBy k l).Pairwise (fun a b => k b ≤ k a) := by
  haveI : IsTotal α (fun a b => k b ≤ k a) := ⟨fun a b => le_total (k b) (k a)⟩
  haveI : IsTrans α (fun a b => k b ≤ k a) := ⟨fun _ _ _ hab hbc => le_trans hbc hab⟩
  exact List.sorted_insertionSort _ l

/-- Stability of `sortDescBy`: restricted to any single key class (any
predicate that only selects elements of one key value), the sorted list
reads exactly like the input — tied elements keep their input order. -/
theorem sortDescBy_filter (k : α → ℚ) (l : List α) (p : α → Bool)
    (hp : ∀ a b, p a → p b → k a = k b) :
    (sortDescBy k l).filter p = l.filter p := by
  have hsub : List.Sublist (l.filter p) (List.insertionSort (fun a b => k b ≤ k a) l) := by
    apply List.sublist_insertionSort ?hpair (List.filter_sublist l)
    apply List.pairwise_of_forall_mem_list
    intro a ha b hb
    exact le_of_eq (hp b a (List.of_mem_filter hb) (List.of_mem_filter ha))
  have hsub2 : List.Sublist (l.filter p) ((sortDescBy k l).filter p) := by
    have := hsub.filter p
    rwa [List.filter_eq_self.mpr (fun a ha => List.of_mem_filter ha)] at this
  have hperm : List.Perm ((sortDescBy k l).filter p) (l.filter p) :=
    (sortDescBy_perm k l).filter p
  exact (hsub2.eq_of_length hperm.length_eq.symm).symm

/-- Sorting a list whose keys are all equal changes nothing. -/
theorem sortDescBy_of_const (k : α → ℚ) (c : ℚ) (l : List α)
    (h : ∀ a ∈ l, k a = c) : sortDescBy k l = l := by
  apply List.Sorted.insertionSort_eq
  apply List.pairwise_of_forall_mem_list
  intro a ha b hb
  rw [h a ha, h b hb]

/-- The accumulator loops `reduce((acc, x) => acc + f x, c)` compute
`c` plus the sum of the mapped list. -/
theorem foldl_add_eq_sum (f : α → ℚ) (l : List α) (c : ℚ) :
    l.foldl (fun acc x => acc + f x) c = c + (l.map f).sum := by
  induction l generalizing c with
  | nil => simp
  | cons x xs ih => simp [ih, add_assoc]

/-- `toFixed(1)` changes a number by at most `0.05`. -/
theorem round1_sub_le (q : ℚ) : |round1 q - q| ≤ 1 / 20 := by
  have h1 : (⌊q * 10 + 1 / 2⌋ : ℚ) ≤ q * 10 + 1 / 2 := Int.floor_le _
  have h2 : q * 10 + 1 / 2 - 1 < ⌊q * 10 + 1 / 2⌋ := Int.sub_one_lt_floor _
  rw [abs_le, round1]
  constructor <;> linarith

/-- Rounding every entry of a list to one decimal place moves the sum by
at most `0.05` per entry. -/
theorem sum_round1_sub_le (l : List ℚ) :
    |(l.map round1).sum - l.sum| ≤ l.length / 20 := by
  induction l with
  | nil => simp
  | cons x xs ih =>
    simp only [List.map_cons, List.sum_cons, List.length_cons]
    have h1 := round1_sub_le x
    have h2 := abs_add (round1 x - x) ((xs.map round1).sum - xs.sum)
    have h3 : round1 x + (xs.map round1).sum - (x + xs.sum) =
        (round1 x - x) + ((xs.map round1).sum - xs.sum) := by ring
    rw [h3]
    have h4 : ((xs.length + 1 : ℕ) : ℚ) / 20 = 1 / 20 + (xs.length : ℚ) / 20 := by
      push_cast
      ring
    rw [h4]
    exact le_trans h2 (add_le_add h1 ih)

/-- Pulling a constant factor out of a mapped sum. -/
theorem sum_map_mul_const (l : List α) (f : α → ℚ) (c : ℚ) :
    (l.map (fun x => f x * c)).sum = (l.map f).sum * c := by
  induction l with
  | nil => simp
  | cons x xs ih => simp [ih, add_mul]

/-! ### C1 — year selection on an unknown year -/

/-- **C1, counterexample.** The claim says a year-selection with a year
outside the dataset's known year set fails with `InvalidSelection` and
leaves `currentYear` unchanged.  On the code this is false: with prior
selection `"2023"`, calling `filterByYear` with the unknown year `"1999"`
does fail (an untyped `TypeError`, not `InvalidSelection`), but only
after `window.currentYear = year` has already run — the post-state
carries `currentYear = "1999"`, not the prior `"2023"`. -/
theorem C1_counterexample :
    (filterByYear exD ⟨"2023"⟩ "1999").2 = .error .typeError ∧
    (filterByYear exD ⟨"2023"⟩ "1999").1.currentYear = "1999" ∧
    "1999" ≠ "2023" := by
  refine ⟨?_, rfl, by decide⟩
  simp [filterByYear, totalForYear, Dataset.regionalFor, exD, List.lookup]

/-- **C1, amended.** For every year with no entry in the dataset's
regional mapping, `filterByYear` overwrites `currentYear` with the
requested year and only then fails (with an untyped `TypeError`): the
failed selection update IS observable in the selection state, for every
prior state. -/
theorem C1_amended (d : Dataset) (st : SelState) (y : String)
    (h : d.regionalFor y = none) :
    filterByYear d st y = (⟨y⟩, .error .typeError) := by
  simp [filterByYear, totalForYear, h]

/-- Witness for `C1_amended` at the example dataset and year `"1999"`. -/
theorem C1_amended_witness :
    exD.regionalFor "1999" = none ∧
    filterByYear exD ⟨"2023"⟩ "1999" = (⟨"1999"⟩, .error .typeError) := by
  have h : exD.regionalFor "1999" = none := by
    simp [Dataset.regionalFor, exD, List.lookup]
  exact ⟨h, C1_amended exD ⟨"2023"⟩ "1999" h⟩

/-! ### C2 — share percentage when the visible sum is zero -/

/-- **C2, counterexample.** The claim says the share-percentage
computation returns 0 for every index when the visible sum is 0,
"instead of dividing by zero".  The source has no such guard: it divides
anyway.  With the single visible value 0 the computed percentage is
`NaN`, not 0; with the value 5 hidden (visible sum 0) it is `Infinity`,
not 0. -/
theorem C2_counterexample :
    visibleSharePercent [0] [true] 0 ≠ .num 0 ∧
    visibleSharePercent [0] [true] 0 = .nan ∧
    visibleSharePercent [5] [false] 0 = .inf := by
  have h1 : visibleSharePercent [0] [true] 0 = .nan := by
    norm_num [visibleSharePercent, visibleSum, visibleIdx, jsDiv, toFixed1,
      List.range_succ]
  have h2 : visibleSharePercent [5] [false] 0 = .inf := by
    norm_num [visibleSharePercent, visibleSum, visibleIdx, jsDiv, toFixed1,
      List.range_succ]
  exact ⟨by rw [h1]; decide, h1, h2⟩

/-- **C2, amended.** When the visible sum is 0 the division is performed
anyway: for a non-negative value the result is `NaN` if the value is 0
and `Infinity` otherwise — never the number 0. -/
theorem C2_amended (values : List ℚ) (mask : List Bool) (i : Nat)
    (h0 : visibleSum values mask = 0) (hnn : 0 ≤ values.getD i 0) :
    visibleSharePercent values mask i =
      (if values.getD i 0 = 0 then JsNum.nan else JsNum.inf) ∧
    visibleSharePercent values mask i ≠ .num 0 := by
  unfold visibleSharePercent
  rw [h0]
  revert hnn
  generalize values.getD i 0 = v
  intro hnn
  by_cases hv : v = 0
  · subst hv
    simp [jsDiv, toFixed1]
  · have hpos : 0 < v := lt_of_le_of_ne hnn (Ne.symm hv)
    have h1 : v * 100 ≠ 0 := by positivity
    have h2 : 0 < v * 100 := by positivity
    simp [jsDiv, toFixed1, hv, h1, h2]

/-- Witness for `C2_amended` at the single visible zero value. -/
theorem C2_amended_witness :
    visibleSum [0] [true] = 0 ∧ (0 : ℚ) ≤ ([0] : List ℚ).getD 0 0 ∧
    visibleSharePercent [0] [true] 0 = .nan := by
  have h0 : visibleSum [(0 : ℚ)] [true] = 0 := by
    norm_num [visibleSum, visibleIdx, List.range_succ]
  have hnn : (0 : ℚ) ≤ ([0] : List ℚ).getD 0 0 := by norm_num
  refine ⟨h0, hnn, ?_⟩
  have h := (C2_amended [0] [true] 0 h0 hnn).1
  simpa using h

/-! ### C3 — unknown year / unknown source in the aggregators -/

/-- **C3, counterexample.** The claim says every aggregator fails with
the named error kind `InvalidSource` for a source absent from the
dataset's source list and never silently defaults it.  On the code this
is false: `"coal"` is not among the example dataset's sources, yet the
ranking succeeds, silently defaulting every region's value for the
unknown source to 0 (exactly the per-cell default the claim reserves for
numeric gaps). -/
theorem C3_counterexample :
    "coal" ∉ exD.sources ∧
    rankBySource exD "2023" "coal" = .ok [("A", 0), ("B", 0)] := by
  constructor
  · decide
  · simp [rankBySource, Dataset.regionalFor, exD, sortDescBy, recA, recB,
      RegionRecord.get, List.lookup]

/-- **C3, amended.** An unknown *year* makes every aggregator that reads
`data.regional[year]` fail — but with an untyped `TypeError` from the
`undefined` lookup, not a named `InvalidYear`.  An unknown *source* never
fails at all: each region's value for it silently defaults to 0, so the
ranking succeeds and returns the full region list (in input order, all
values 0). -/
theorem C3_amended (d : Dataset) (y s : String) :
    (d.regionalFor y = none →
      rankBySource d y s = .error .typeError ∧
      totalForYear d y = .error .typeError ∧
      sourceMixTotals d y = .error .typeError ∧
      topRegions d y 5 = .error .typeError ∧
      regionShareTotals d y = .error .typeError) ∧
    (∀ rs, d.regionalFor y = some rs →
      (∀ r ∈ rs, r.values.lookup s = none) →
      rankBySource d y s = .ok (rs.map (fun r => (r.region, 0)))) := by
  constructor
  · intro h
    refine ⟨?_, ?_, ?_, ?_, ?_⟩ <;>
      simp [rankBySource, totalForYear, sourceMixTotals, topRegions,
        regionShareTotals, h]
  · intro rs h habsent
    have hmap : rs.map (fun r => (r.region, r.get s)) =
        rs.map (fun r => (r.region, (0 : ℚ))) := by
      apply List.map_congr_left
      intro r hr
      simp [RegionRecord.get, habsent r hr]
    have hconst : ∀ p ∈ rs.map (fun r => (r.region, (0 : ℚ))), Prod.snd p = 0 := by
      intro p hp
      obtain ⟨r, _, rfl⟩ := List.mem_map.mp hp
      rfl
    simp [rankBySource, h, hmap, sortDescBy_of_const Prod.snd 0 _ hconst]

/-- Witness for `C3_amended`: the unknown year `"1999"` makes the ranking
fail, while the unknown source `"coal"` on the valid year `"2023"`
silently yields the all-zero ranking in input order. -/
theorem C3_amended_witness :
    rankBySource exD "1999" "coal" = .error .typeError ∧
    rankBySource exD "2023" "coal" =
      .ok ([recA, recB].map (fun r => (r.region, 0))) := by
  have h1 : exD.regionalFor "1999" = none := by
    simp [Dataset.regionalFor, exD, List.lookup]
  have h2 : exD.regionalFor "2023" = some [recA, recB] := by
    simp [Dataset.regionalFor, exD, List.lookup]
  have h3 : ∀ r ∈ [recA, recB], r.values.lookup "coal" = none := by
    intro r hr
    rcases List.mem_pair.mp hr with rfl | rfl <;> simp [recA, recB, List.lookup]
  exact ⟨((C3_amended exD "1999" "coal").1 h1).1,
    (C3_amended exD "2023" "coal").2 [recA, recB] h2 h3⟩

/-! ### C7 — totalForYear equals the sum of region totals -/

/-- **C7.** For every dataset and every year present in the regional
mapping, the year total computed by `filterByYear`'s nested `reduce`
equals the sum of the per-region grand totals over every region record of
that year. -/
theorem C7_totalForYear (d : Dataset) (y : String) (rs : List RegionRecord)
    (h : d.regionalFor y = some rs) :
    totalForYear d y = .ok ((rs.map (fun r => regionTotal r d.sources)).sum) := by
  simp [totalForYear, h, foldl_add_eq_sum]

/-- Witness for `C7_totalForYear` at the example dataset. -/
theorem C7_totalForYear_witness :
    exD.regionalFor "2023" = some [recA, recB] ∧
    totalForYear exD "2023" =
      .ok (([recA, recB].map (fun r => regionTotal r exD.sources)).sum) := by
  have h : exD.regionalFor "2023" = some [recA, recB] := by
    simp [Dataset.regionalFor, exD, List.lookup]
  exact ⟨h, C7_totalForYear exD "2023" [recA, recB] h⟩

/-! ### C4 — topRegions: stable descending ranking, truncated -/

/-- **C4.** For every dataset and valid year, `topRegions` returns the
first `n` entries of the full ranking: the ranking is a permutation of
the year's region records, sorted descending by the per-region grand
total (comparator on totals only), stable — restricted to any one total
value the ranking reads exactly like the input, so ties preserve input
order — and the result's length is `min n regionCount`. -/
theorem C4_topRegions (d : Dataset) (y : String) (n : Nat)
    (rs : List RegionRecord) (h : d.regionalFor y = some rs) :
    topRegions d y n = .ok ((sortDescBy (regionTotal · d.sources) rs).take n) ∧
    ((sortDescBy (regionTotal · d.sources) rs).take n).length = min n rs.length ∧
    (sortDescBy (regionTotal · d.sources) rs).Pairwise
      (fun a b => regionTotal b d.sources ≤ regionTotal a d.sources) ∧
    List.Perm (sortDescBy (regionTotal · d.sources) rs) rs ∧
    (∀ t : ℚ, (sortDescBy (regionTotal · d.sources) rs).filter
        (fun r => regionTotal r d.sources == t) =
      rs.filter (fun r => regionTotal r d.sources == t)) := by
  refine ⟨by simp [topRegions, h], ?_, sortDescBy_sorted _ _,
    sortDescBy_perm _ _, ?_⟩
  · rw [List.length_take, sortDescBy_length]
  · intro t
    apply sortDescBy_filter
    intro a b ha hb
    rw [eq_of_beq ha, eq_of_beq hb]

/-- Witness for `C4_topRegions` at the example dataset (a genuine tie:
both regions total 100) with `n = 1`. -/
theorem C4_topRegions_witness :
    topRegions exD "2023" 1 =
      .ok ((sortDescBy (regionTotal · exD.sources) [recA, recB]).take 1) ∧
    ((sortDescBy (regionTotal · exD.sources) [recA, recB]).take 1).length =
      min 1 [recA, recB].length ∧
    (sortDescBy (regionTotal · exD.sources) [recA, recB]).filter
        (fun r => regionTotal r exD.sources == 100) =
      [recA, recB].filter (fun r => regionTotal r exD.sources == 100) := by
  have h := C4_topRegions exD "2023" 1 [recA, recB]
    (by simp [Dataset.regionalFor, exD, List.lookup])
  exact ⟨h.1, h.2.1, h.2.2.2.2 100⟩

/-! ### C6 — heatmap intensity -/

/-- **C6, counterexample.** The claim says that for ALL non-negative
inputs with `maxValue > 0` the intensity is the affine formula clamped to
`[0, ceiling]`.  The source never clamps: at `value = 2, maxValue = 1`
the code yields `0.1 + 2 * 0.9 = 1.9`, while the clamped formula of the
claim yields the ceiling 1. -/
theorem C6_counterexample :
    heatmapIntensity 2 1 = 19 / 10 ∧ heatmapIntensitySpec 2 1 = 1 ∧
    heatmapIntensity 2 1 ≠ heatmapIntensitySpec 2 1 := by
  norm_num [heatmapIntensity, heatmapIntensitySpec]

/-- **C6, amended.** Restricted to the domain the code ever evaluates it
on — cell values between 0 and the grid maximum — the claim holds: the
code's unclamped formula agrees with the spec's clamped one (the clamp is
vacuous there), the zero branch returns 0, the intensity at
`value = maxValue` is the ceiling 1, and intensity is monotone
non-decreasing in the value. -/
theorem C6_amended (v₁ v₂ m : ℚ) (hm : 0 < m) (h0 : 0 ≤ v₁) (h12 : v₁ ≤ v₂)
    (h2m : v₂ ≤ m) :
    heatmapIntensity v₁ m = heatmapIntensitySpec v₁ m ∧
    (v₁ ≤ 0 → heatmapIntensity v₁ m = 0) ∧
    heatmapIntensity m m = 1 ∧
    heatmapIntensity v₁ m ≤ heatmapIntensity v₂ m := by
  have hv2 : 0 ≤ v₂ := le_trans h0 h12
  have key : ∀ v : ℚ, 0 ≤ v → v ≤ m →
      heatmapIntensity v m = heatmapIntensitySpec v m := by
    intro v hv hvm
    unfold heatmapIntensity heatmapIntensitySpec
    by_cases hpos : 0 < v
    · rw [if_pos hpos, if_neg (not_le.mpr hpos)]
      have hdiv0 : 0 ≤ v / m := div_nonneg hv hm.le
      have hdiv1 : v / m ≤ 1 := (div_le_one hm).mpr hvm
      have hle : 1 / 10 + v / m * (9 / 10) ≤ 1 := by linarith
      have hge : 0 ≤ 1 / 10 + v / m * (9 / 10) := by linarith
      rw [show (1 : ℚ) - 1 / 10 = 9 / 10 by norm_num]
      rw [min_eq_right hle, max_eq_right hge]
    · rw [if_neg hpos, if_pos (not_lt.mp hpos)]
  refine ⟨key v₁ h0 (le_trans h12 h2m), ?_, ?_, ?_⟩
  · intro hle
    unfold heatmapIntensity
    rw [if_neg (not_lt.mpr hle)]
  · unfold heatmapIntensity
    rw [if_pos hm, div_self hm.ne']
    norm_num
  · unfold heatmapIntensity
    by_cases h1 : 0 < v₁
    · have h2 : 0 < v₂ := lt_of_lt_of_le h1 h12
      rw [if_pos h1, if_pos h2]
      have hdd : v₁ / m ≤ v₂ / m := by gcongr
      linarith
    · rw [if_neg h1]
      by_cases h2 : 0 < v₂
      · rw [if_pos h2]
        have hdiv : 0 ≤ v₂ / m := div_nonneg hv2 hm.le
        linarith
      · rw [if_neg h2]

/-- Witness for `C6_amended` at `v₁ = 1, v₂ = 2, m = 2`. -/
theorem C6_amended_witness :
    heatmapIntensity 1 2 = heatmapIntensitySpec 1 2 ∧
    ((1 : ℚ) ≤ 0 → heatmapIntensity 1 2 = 0) ∧
    heatmapIntensity 2 2 = 1 ∧
    heatmapIntensity 1 2 ≤ heatmapIntensity 2 2 :=
  C6_amended 1 2 2 (by norm_num) (by norm_num) (by norm_num) (by norm_num)

/-! ### C5 — percentage-label suppression threshold -/

/-- A label built by appending `"%"` is never the empty string. -/
theorem append_percent_ne_empty (s : String) : s ++ "%" ≠ "" := by
  intro h
  have h2 := congrArg String.length h
  simp [String.length_append] at h2
  exact absurd h2.2 (by decide)

/-- **C5.** The suppression rule shared by the mix and share formatters:
whenever the visible sum is non-zero (so the percentage is an actual
number), the label is non-empty exactly when the computed (rounded)
percentage strictly exceeds 3 — and concretely, a share of exactly 3.0%
produces the empty string while 3.1% produces a label.  The formatter is
a pure function of `(values, mask, index)`: the underlying values are
not modified. -/
theorem C5_label_threshold (values : List ℚ) (mask : List Bool) (i : Nat)
    (hS : visibleSum values mask ≠ 0) :
    (chartPercentLabel values mask i ≠ "" ↔
      3 < round1 (values.getD i 0 * 100 / visibleSum values mask)) ∧
    chartPercentLabel [3, 97] [true, true] 0 = "" ∧
    chartPercentLabel [31, 969] [true, true] 0 ≠ "" := by
  refine ⟨?_, ?_, ?_⟩
  · unfold chartPercentLabel visibleSharePercent jsDiv
    rw [if_neg hS]
    simp only [toFixed1, gtThree, decide_eq_true_eq]
    by_cases h3 : 3 < round1 (values.getD i 0 * 100 / visibleSum values mask)
    · rw [if_pos h3]
      exact iff_of_true (append_percent_ne_empty _) h3
    · rw [if_neg h3]
      exact iff_of_false (fun hc => hc rfl) h3
  · norm_num [chartPercentLabel, visibleSharePercent, visibleSum, visibleIdx,
      jsDiv, toFixed1, round1, gtThree, List.range_succ]
  · have hval : chartPercentLabel [31, 969] [true, true] 0 =
        fmtNum (.num (31 / 10)) ++ "%" := by
      norm_num [chartPercentLabel, visibleSharePercent, visibleSum, visibleIdx,
        jsDiv, toFixed1, round1, gtThree, List.range_succ]
    rw [hval]
    exact append_percent_ne_empty _

/-- Witness for `C5_label_threshold` at the 3.1% example. -/
theorem C5_label_threshold_witness :
    visibleSum [31, 969] [true, true] ≠ 0 ∧
    (chartPercentLabel [31, 969] [true, true] 0 ≠ "" ↔
      3 < round1 (([31, 969] : List ℚ).getD 0 0 * 100 /
        visibleSum [31, 969] [true, true])) := by
  have hS : visibleSum [(31 : ℚ), 969] [true, true] ≠ 0 := by
    norm_num [visibleSum, visibleIdx, List.range_succ]
  exact ⟨hS, (C5_label_threshold [31, 969] [true, true] 0 hS).1⟩

/-! ### C8 — visibility-renormalized shares sum to 100 -/

/-- **C8.** For every array of non-negative values and every visibility
mask whose visible sum is positive, the exact (unrounded) shares over
the visible indices sum to exactly 100, and the rounded shares actually
produced by `visibleSharePercent` sum to 100 within the rounding
tolerance of 0.05 per visible index; on each visible index the formatter
indeed yields the rounded exact share. -/
theorem C8_share_sum (values : List ℚ) (mask : List Bool)
    (hnn : ∀ v ∈ values, 0 ≤ v) (hpos : 0 < visibleSum values mask) :
    ((visibleIdx values mask).map
      (fun i => values.getD i 0 * 100 / visibleSum values mask)).sum = 100 ∧
    |((visibleIdx values mask).map
        (fun i => round1 (values.getD i 0 * 100 / visibleSum values mask))).sum
      - 100| ≤ (visibleIdx values mask).length / 20 ∧
    (∀ i ∈ visibleIdx values mask,
      visibleSharePercent values mask i =
        .num (round1 (values.getD i 0 * 100 / visibleSum values mask))) := by
  have hS : visibleSum values mask ≠ 0 := hpos.ne'
  have hsum : ((visibleIdx values mask).map
      (fun i => values.getD i 0 * 100 / visibleSum values mask)).sum = 100 := by
    have hrw : (visibleIdx values mask).map
        (fun i => values.getD i 0 * 100 / visibleSum values mask) =
        (visibleIdx values mask).map
        (fun i => values.getD i 0 * (100 / visibleSum values mask)) := by
      apply List.map_congr_left
      intro j _
      rw [mul_div_assoc]
    rw [hrw, sum_map_mul_const]
    rw [show ((visibleIdx values mask).map (fun i => values.getD i 0)).sum
        = visibleSum values mask from rfl]
    field_simp
  refine ⟨hsum, ?_, ?_⟩
  · have h := sum_round1_sub_le ((visibleIdx values mask).map
      (fun i => values.getD i 0 * 100 / visibleSum values mask))
    rw [List.map_map, hsum, List.length_map] at h
    simpa [Function.comp] using h
  · intro j _
    unfold visibleSharePercent jsDiv
    rw [if_neg hS]
    rfl

/-- Witness for `C8_share_sum` at the example mix totals, all visible. -/
theorem C8_share_sum_witness :
    (∀ v ∈ ([150, 50] : List ℚ), 0 ≤ v) ∧
    0 < visibleSum [150, 50] [true, true] ∧
    ((visibleIdx [150, 50] [true, true]).map
      (fun i => ([150, 50] : List ℚ).getD i 0 * 100 /
        visibleSum [150, 50] [true, true])).sum = 100 ∧
    |((visibleIdx [150, 50] [true, true]).map
        (fun i => round1 (([150, 50] : List ℚ).getD i 0 * 100 /
          visibleSum [150, 50] [true, true]))).sum
      - 100| ≤ (visibleIdx [150, 50] [true, true]).length / 20 := by
  have hnn : ∀ v ∈ ([150, 50] : List ℚ), 0 ≤ v := by
    intro v hv
    rcases List.mem_pair.mp hv with rfl | rfl <;> norm_num
  have hpos : 0 < visibleSum [(150 : ℚ), 50] [true, true] := by
    norm_num [visibleSum, visibleIdx, List.range_succ]
  have h := C8_share_sum [150, 50] [true, true] hnn hpos
  exact ⟨hnn, hpos, h.1, h.2.1⟩

/-! ### C9 — the spec's end-to-end example -/

/-- **C9.** On the two-region example dataset for year `"2023"` with
`sources = [solar, wind]`: both region totals are 100; the share ranking
keeps `A` before `B` (tie broken by input order); the source-mix totals
are `solar ↦ 150, wind ↦ 50` in `Dataset.sources` order; and with all
series visible the share percentages are 75.0 for solar and 25.0 for
wind. -/
theorem C9_end_to_end :
    regionTotal recA ["solar", "wind"] = 100 ∧
    regionTotal recB ["solar", "wind"] = 100 ∧
    regionShareTotals exD "2023" = .ok [("A", 100), ("B", 100)] ∧
    sourceMixTotals exD "2023" = .ok [("solar", 150), ("wind", 50)] ∧
    visibleSharePercent [150, 50] [true, true] 0 = .num 75 ∧
    visibleSharePercent [150, 50] [true, true] 1 = .num 25 := by
  refine ⟨?_, ?_, ?_, ?_, ?_, ?_⟩
  · simp [regionTotal, RegionRecord.get, recA, List.lookup]
  · simp [regionTotal, RegionRecord.get, recB, List.lookup]
    norm_num
  · simp [regionShareTotals, Dataset.regionalFor, exD, sortDescBy, regionTotal,
      RegionRecord.get, recA, recB, List.lookup]
    norm_num
  · simp [sourceMixTotals, Dataset.regionalFor, exD, RegionRecord.get,
      recA, recB, List.lookup]
    norm_num
  · norm_num [visibleSharePercent, visibleSum, visibleIdx, jsDiv, toFixed1,
      round1, List.range_succ]
  · norm_num [visibleSharePercent, visibleSum, visibleIdx, jsDiv, toFixed1,
      round1, List.range_succ]

/-! ### C10 — heatmap on an all-zero year -/

/-- The grid-maximum scan over a region whose values are all zero leaves
the accumulator at 0. -/
theorem foldl_max_zero (r : RegionRecord) (ss : List String)
    (hz : ∀ s ∈ ss, r.get s = 0) :
    ss.foldl (fun m s => if m < r.get s then r.get s else m) 0 = 0 := by
  induction ss with
  | nil => rfl
  | cons s ss ih =>
    simp only [List.foldl_cons]
    rw [hz s (List.mem_cons_self s ss), if_neg (lt_irrefl 0)]
    exact ih (fun s' hs' => hz s' (List.mem_cons_of_mem s hs'))

/-- On a year whose records hold only zero (or absent) values, the grid
maximum stays 0. -/
theorem heatmapMax_zero (d : Dataset) (rs : List RegionRecord)
    (hz : ∀ r ∈ rs, ∀ s ∈ d.sources, r.get s = 0) :
    heatmapMax d rs = 0 := by
  unfold heatmapMax
  induction rs with
  | nil => rfl
  | cons r rs ih =>
    simp only [List.foldl_cons]
    rw [foldl_max_zero r d.sources (hz r (List.mem_cons_self r rs))]
    exact ih (fun r' hr' => hz r' (List.mem_cons_of_mem r hr'))

/-- **C10.** For a year whose region records contain only zero (or
absent) values for every source, the heatmap computation performs no
division at all: the grid maximum stays 0 and every cell takes the zero
branch — rendered as `"-"` with no intensity (`none`), so no intensity is
ever computed from the zero maximum. -/
theorem C10_zero_year (d : Dataset) (y : String) (rs : List RegionRecord)
    (h : d.regionalFor y = some rs)
    (hz : ∀ r ∈ rs, ∀ s ∈ d.sources, r.get s = 0) :
    heatmapMax d rs = 0 ∧
    showHeatmapGrid d y =
      .ok (rs.map (fun r =>
        (r.region, d.sources.map (fun _ => (("-", none) : String × Option ℚ))))) := by
  have hmax := heatmapMax_zero d rs hz
  refine ⟨hmax, ?_⟩
  simp only [showHeatmapGrid, h]
  congr 1
  apply List.map_congr_left
  intro r hr
  refine congrArg (Prod.mk r.region) ?_
  apply List.map_congr_left
  intro s hs
  rw [hz r hr s hs, hmax]
  simp [heatmapCell]

/-- Witness for `C10_zero_year` at the all-zero dataset `exDZero`. -/
theorem C10_zero_year_witness :
    heatmapMax exDZero [⟨"Z1", []⟩, ⟨"Z2", [("solar", 0)]⟩] = 0 ∧
    showHeatmapGrid exDZero "2024" =
      .ok (([⟨"Z1", []⟩, ⟨"Z2", [("solar", 0)]⟩] : List RegionRecord).map
        (fun r => (r.region,
          exDZero.sources.map (fun _ => (("-", none) : String × Option ℚ))))) := by
  have h : exDZero.regionalFor "2024" =
      some [⟨"Z1", []⟩, ⟨"Z2", [("solar", 0)]⟩] := by
    simp [Dataset.regionalFor, exDZero, List.lookup]
  have hz : ∀ r ∈ [(⟨"Z1", []⟩ : RegionRecord), ⟨"Z2", [("solar", 0)]⟩],
      ∀ s ∈ exDZero.sources, r.get s = 0 := by
    intro r hr s hs
    simp only [exDZero] at hs
    rcases List.mem_pair.mp hr with rfl | rfl <;>
      rcases List.mem_pair.mp hs with rfl | rfl <;>
        simp [RegionRecord.get, List.lookup]
  exact C10_zero_year exDZero "2024" _ h hz

end SDGs
